import Mathlib

/-!
Shallow embedding of `src/gam/gapi/__init__.py` (GAM's GAPI request-execution
layer): the retry wrapper `call`, the pagination aggregator `get_all_pages`
with `process_page`, the page-size negotiator `_get_max_page_size_for_api_call`
and the token-error handler `handle_oauth_token_error`.

External collaborators (the `errors`, `controlflow`, `display`, `transport`
and `var` modules) are not part of the translated source file; they enter the
model as abstract parameters:
  * the outcome of `method(**parameters).execute()` / the classification
    produced by `errors.get_gapi_error_detail` is an `Attempt` supplied per
    loop iteration by an environment `env : Nat → Attempt ρ`;
  * the tables `ErrorReason`, `ERROR_REASON_TO_EXCEPTION`,
    `DEFAULT_RETRY_REASONS`, `OAUTH2_TOKEN_ERRORS` and the globals
    (`GM_CURRENT_API_USER`, message templates) are fields of `Config`;
  * `controlflow.system_error_exit` becomes the `exited` outcome,
    `display.print_error` appends to an output list, and raising an exception
    becomes a `raised…` outcome.
-/

namespace Gapi

/-- A Python-like value as found inside API response items: a string or a
dictionary with string keys.  This is the shape `process_page` manipulates
when it resolves `message_attribute` on the first/last item of a page. -/
inductive PVal where
  | vstr : String → PVal
  | vdict : List (String × PVal) → PVal

mutual

/-- Python `repr` of a `PVal` (dict entries are shown as `'key': repr(value)`,
which is what `str(...)` of a dict produces). -/
def pyRepr : PVal → String
  | .vstr s => "\x27" ++ s ++ "\x27"
  | .vdict fs => "\x7b" ++ pyReprFields fs ++ "\x7d"

/-- Python `repr` of the entries of a dict, comma separated. -/
def pyReprFields : List (String × PVal) → String
  | [] => ""
  | [kv] => "\x27" ++ kv.1 ++ "\x27: " ++ pyRepr kv.2
  | kv :: rest => "\x27" ++ kv.1 ++ "\x27: " ++ pyRepr kv.2 ++ ", " ++ pyReprFields rest

end

/-- Python `str(...)` of a `PVal`: a string converts to itself, a dict to its
`repr` (so the empty dict converts to the two-character string of an opening
and a closing curly brace). -/
def pyStr : PVal → String
  | .vstr s => s
  | .vdict fs => pyRepr (.vdict fs)

/-- Python `d.get(key, default)` on a dict given as an association list. -/
def dictGetD (fs : List (String × PVal)) (key : String) (dflt : PVal) : PVal :=
  match fs.find? (fun kv => kv.1 == key) with
  | some kv => kv.2
  | none => dflt

/-- Python `v.get(key, \x7b\x7d)` on an arbitrary value: defined on dicts
(with the empty dict as default), an `AttributeError` (`none`) on strings. -/
def pyGetAttr : PVal → String → Option PVal
  | .vdict fs, key => some (dictGetD fs key (.vdict []))
  | .vstr _, _ => none

/-- Marker replaced by the running total (`TOTAL_ITEMS_MARKER`). -/
def TOTAL_ITEMS_MARKER : String := "%%total_items%%"

/-- Marker replaced by the first item of the current page (`FIRST_ITEM_MARKER`). -/
def FIRST_ITEM_MARKER : String := "%%first_item%%"

/-- Marker replaced by the last item of the current page (`LAST_ITEM_MARKER`). -/
def LAST_ITEM_MARKER : String := "%%last_item%%"

/-- The `message_attribute` argument of `process_page`: either a single field
name (a Python `str`) or an ordered path of nested field names (a list). -/
inductive MsgAttr where
  | single : String → MsgAttr
  | path : List String → MsgAttr

/-- The single-field-name form: `str(item.get(attr, ""))`; an
`AttributeError` (`none`) when the item is not a dict. -/
def resolveSingle (item : PVal) (attr : String) : Option String :=
  match item with
  | .vdict fs => some (pyStr (dictGetD fs attr (.vstr "")))
  | .vstr _ => none

/-- The nested-path form: `for attr in path: item = item.get(attr, \x7b\x7d)`
followed by `str(item)`; `none` when a step raises `AttributeError`. -/
def resolvePath (item : PVal) (attrs : List String) : Option String :=
  (List.foldlM pyGetAttr item attrs).map pyStr

/-- The first/last item resolution of `process_page` (lines 260-270 of the
source): `first_item = page_items[0] if num_page_items > 0 else \x7b\x7d`,
`last_item = page_items[-1] if num_page_items > 1 else first_item`, then the
attribute resolution in its single or path form on both. -/
def resolveFirstLast (pageItems : List PVal) (attr : MsgAttr) : Option (String × String) :=
  let firstItem := pageItems.headD (.vdict [])
  let lastItem := if 1 < pageItems.length then pageItems.getLastD firstItem else firstItem
  match attr with
  | .single a => do
      let f ← resolveSingle firstItem a
      let l ← resolveSingle lastItem a
      pure (f, l)
  | .path as => do
      let f ← resolvePath firstItem as
      let l ← resolvePath lastItem as
      pure (f, l)

/-- The `if page_message:` block of `process_page`: replace the total-items
marker with the running total and, when a `message_attribute` is given, the
first/last markers with the resolved first/last item of the current page.
`none` models a raised `AttributeError` during resolution. -/
def expandMessage (pageMessage : String) (totalItems : Nat) (pageItems : List PVal)
    (messageAttribute : Option MsgAttr) : Option String :=
  let showMessage := pageMessage.replace TOTAL_ITEMS_MARKER (toString totalItems)
  match messageAttribute with
  | none => some showMessage
  | some attr => do
      let fl ← resolveFirstLast pageItems attr
      pure ((showMessage.replace FIRST_ITEM_MARKER fl.1).replace LAST_ITEM_MARKER fl.2)

/-- One page of a paged response: the `nextPageToken` field and the item list
found under the `items` key that `get_all_pages` passes to `process_page`
(`page.get(items, [])`).  The item type is abstract: aggregation never looks
inside an item. -/
structure Page (α : Type) where
  nextPageToken : Option String
  items : List α

/-- What the aggregation part of `process_page` returns and updates: the page
token, the aggregate (list branch; `get_all_pages` always aggregates into a
list, starting from `[]`), the running total and the current page size. -/
structure PageStep (α : Type) where
  pageToken : Option String
  allItems : List α
  totalItems : Nat
  numPageItems : Nat

/-- The aggregation part of `process_page`: on a truthy page, read the token,
extend `all_items` with the page items in order and add their count to
`total_items`; on a falsy page (`None`), token `None` and zero items. -/
def processPage {α : Type} (page : Option (Page α)) (allItems : List α) (totalItems : Nat) :
    PageStep α :=
  match page with
  | some p => ⟨p.nextPageToken, allItems ++ p.items, totalItems + p.items.length, p.items.length⟩
  | none => ⟨none, allItems, totalItems, 0⟩

/-- Python truthiness of a page token: `None` and the empty string are falsy
(`if not page_token:` ends the paging loop on both). -/
def tokenTruthy : Option String → Bool
  | none => false
  | some s => s != ""

/-- The nested `body` mapping of the request parameters, reduced to the fields
the paging loop writes (`pageToken`). -/
structure BodyArgs where
  pageToken : Option String := none
deriving DecidableEq, Repr

/-- The request parameters of `get_all_pages`, reduced to the fields the
paging loop reads or writes: the top-level `pageToken` and the optional
nested `body` mapping. -/
structure Kwargs where
  pageToken : Option String := none
  body : Option BodyArgs := none
deriving DecidableEq, Repr

/-- The entry of `get_all_pages`: `kwargs.setdefault('body', \x7b\x7d)` when
`page_args_in_body`.  (The `maxResults` negotiation that follows in the
source only merges a page-size parameter, which the paging loop never reads;
it is modelled separately by `getMaxPageSizeForApiCall`.) -/
def getAllPagesInit (pageArgsInBody : Bool) (kw : Kwargs) : Kwargs :=
  if pageArgsInBody then { kw with body := some (kw.body.getD ⟨none⟩) } else kw

/-- Token injection between pages: `kwargs['body']['pageToken'] = page_token`
when `page_args_in_body`, else `kwargs['pageToken'] = page_token`. -/
def injectPageToken (pageArgsInBody : Bool) (tok : String) (kw : Kwargs) : Kwargs :=
  if pageArgsInBody then
    { kw with body := some { kw.body.getD ⟨none⟩ with pageToken := some tok } }
  else
    { kw with pageToken := some tok }

/-- The `pageToken` parameter a call carries, read from the body when
`page_args_in_body`, else at top level. -/
def callPageToken (pageArgsInBody : Bool) (kw : Kwargs) : Option String :=
  if pageArgsInBody then (kw.body.getD ⟨none⟩).pageToken else kw.pageToken

/-- The `while True:` loop of `get_all_pages`.  `responses` lists, in order,
the page returned by each successful `call` (the environment); the recursion
consumes one response per call.  Returns the aggregate, the final running
total and the trace of request parameters, one `Kwargs` per issued call;
`none` when the environment is exhausted before a falsy token ends the loop. -/
def getAllPagesLoop {α : Type} (pageArgsInBody : Bool) :
    List (Option (Page α)) → Kwargs → List α → Nat → List Kwargs →
    Option (List α × Nat × List Kwargs)
  | [], _, _, _, _ => none
  | page :: rest, kw, allItems, totalItems, trace =>
      let step := processPage page allItems totalItems
      if tokenTruthy step.pageToken then
        getAllPagesLoop pageArgsInBody rest
          (injectPageToken pageArgsInBody (step.pageToken.getD "") kw)
          step.allItems step.totalItems (trace ++ [kw])
      else
        some (step.allItems, step.totalItems, trace ++ [kw])

/-- `get_all_pages`: initialize the body mapping, then loop from an empty
aggregate, zero total and an empty call trace. -/
def getAllPages {α : Type} (pageArgsInBody : Bool) (responses : List (Option (Page α)))
    (kw : Kwargs) : Option (List α × Nat × List Kwargs) :=
  getAllPagesLoop pageArgsInBody responses (getAllPagesInit pageArgsInBody kw) [] 0 []

/-- One loop iteration's outcome of `method(**parameters).execute()` in
`call`, as seen after classification: a successful response, an `HttpError`
already classified by `errors.get_gapi_error_detail` into
`(http_status, reason, message)`, a `RefreshError`, a `ValueError`, a
`ServerNotFoundError`/`RuntimeError`, or a `TypeError`. -/
inductive Attempt (ρ : Type) where
  | success (response : ρ)
  | httpError (httpStatus : Int) (reason : String) (message : String)
  | refreshError (message : String)
  | valueError (message : String)
  | serverNotFoundError (message : String)
  | typeError (message : String)
deriving DecidableEq

/-- The transport state of the service handle that `call` mutates: whether
`service._http.cache` is set (the `ValueError` branch clears it once). -/
structure SvcState where
  cacheActive : Bool
deriving DecidableEq, Repr

/-- The externally supplied tables and globals `call` and
`handle_oauth_token_error` consult: the `ErrorReason` value set, membership
in `ERROR_REASON_TO_EXCEPTION`, `DEFAULT_RETRY_REASONS`, the
`SERVICE_NOT_AVAILABLE` reason value, `GM_CURRENT_API_USER`,
`OAUTH2_TOKEN_ERRORS` and the fixed message templates. -/
structure Config where
  knownReasons : List String
  reasonHasException : String → Bool
  defaultRetryReasons : List String
  snaReason : String
  currentApiUser : Option String
  oauthTokenErrors : List String
  messageApiAccessConfig : String
  messageServiceNotApplicable : String → String

/-- Python truthiness of the `GM_CURRENT_API_USER` global: unset (`None`) and
the empty string are falsy. -/
def userTruthy : Option String → Bool
  | none => false
  | some s => s != ""

/-- Display form of the current-user global inside f-strings (`None` when
unset, as Python would render it). -/
def userDisplay : Option String → String
  | none => "None"
  | some s => s

/-- The recognition test of `handle_oauth_token_error`: the message with all
periods removed is a member of `OAUTH2_TOKEN_ERRORS`, or starts with
`"Invalid response"`. -/
def tokenErrorRecognized (cfg : Config) (errMessage : String) : Bool :=
  let tokenError := errMessage.replace "." ""
  cfg.oauthTokenErrors.contains tokenError || tokenError.startsWith "Invalid response"

/-- What `handle_oauth_token_error` does: return to the caller, or terminate
the process with an exit code and message (`controlflow.system_error_exit`). -/
inductive TokenHandlerResult where
  | returns
  | exits (code : Int) (message : String)
deriving DecidableEq, Repr

/-- `handle_oauth_token_error`: on a recognized token error, return when soft
errors are allowed, else exit 12 (no current user; the access-denied
explanation printed before the exit is not tracked) or 19 (current user set);
on an unrecognized message, exit 18. -/
def handleOauthTokenError (cfg : Config) (errMessage : String) (softErrors : Bool) :
    TokenHandlerResult :=
  if tokenErrorRecognized cfg errMessage then
    if softErrors then .returns
    else if userTruthy cfg.currentApiUser then
      .exits 19 (cfg.messageServiceNotApplicable (userDisplay cfg.currentApiUser))
    else
      .exits 12 cfg.messageApiAccessConfig
  else
    .exits 18 ("Authentication Token Error - " ++ errMessage)

/-- How `call` terminates: a returned value (the response, or Python `None`),
a raised dedicated exception from `ERROR_REASON_TO_EXCEPTION`, a re-raised
`HttpError`, a raised `GapiServiceNotAvailableError`, or process termination
via `controlflow.system_error_exit`. -/
inductive CallResult (ρ : Type) where
  | ok (response : Option ρ)
  | raisedTyped (reason : String) (message : String)
  | raisedHttp (httpStatus : Int) (reason : String) (message : String)
  | raisedServiceNotAvailable (message : String)
  | exited (code : Int) (message : String)
deriving DecidableEq

/-- The observable outcome of `call`: its result, the number of
`method(**parameters).execute()` invocations issued, and the lines written
through `display.print_error`. -/
structure CallOutcome (ρ : Type) where
  result : CallResult ρ
  execCalls : Nat
  errOutput : List String
deriving DecidableEq

/-- The message of the fatal HTTP path of `call`:
`f-string of http_status ": " message " - " reason`. -/
def httpFailMsg (httpStatus : Int) (message reason : String) : String :=
  toString httpStatus ++ ": " ++ message ++ " - " ++ reason

/-- The soft-error line of `call`, with the `": Giving up."` suffix on a
retried attempt (`n > 1`). -/
def softFailMsg (httpStatus : Int) (message reason : String) (n : Nat) : String :=
  httpFailMsg httpStatus message reason ++ (if 1 < n then ": Giving up." else "")

/-- The `for n in range(1, retries + 1)` loop of `call`.  `fuel` is the number
of remaining iterations (`retries - n + 1` at entry), `n` the 1-indexed
attempt number, `execCalls`/`errOutput` the accumulated observation.  Fuel 0
is Python falling off the end of the loop: the function returns `None`.
Every branch mirrors the source order: the `-1` (refresh credentials and
continue) and `0` (return `None`) sentinels, the throw-reason check, the
retry check (`n != retries` and known reason in
`DEFAULT_RETRY_REASONS + retry_reasons`), the soft-error return, the fatal
exit; then the `RefreshError`, `ValueError` (clear the cache once),
`ServerNotFoundError`/`RuntimeError` and `TypeError` handlers. -/
def callLoop {ρ : Type} (cfg : Config) (throwReasons retryReasons : List String)
    (softErrors : Bool) (env : Nat → Attempt ρ) (retries : Nat) :
    Nat → Nat → SvcState → Nat → List String → CallOutcome ρ
  | 0, _, _, execCalls, errOutput => ⟨.ok none, execCalls, errOutput⟩
  | fuel + 1, n, st, execCalls, errOutput =>
      match env n with
      | .success r => ⟨.ok (some r), execCalls + 1, errOutput⟩
      | .httpError httpStatus reason message =>
          if httpStatus = -1 then
            callLoop cfg throwReasons retryReasons softErrors env retries fuel (n + 1) st
              (execCalls + 1) errOutput
          else if httpStatus = 0 then
            ⟨.ok none, execCalls + 1, errOutput⟩
          else if reason ∈ cfg.knownReasons ∧ reason ∈ throwReasons then
            if cfg.reasonHasException reason then
              ⟨.raisedTyped reason message, execCalls + 1, errOutput⟩
            else
              ⟨.raisedHttp httpStatus reason message, execCalls + 1, errOutput⟩
          else if n ≠ retries ∧ reason ∈ cfg.knownReasons ∧
              reason ∈ cfg.defaultRetryReasons ++ retryReasons then
            callLoop cfg throwReasons retryReasons softErrors env retries fuel (n + 1) st
              (execCalls + 1) errOutput
          else if softErrors then
            ⟨.ok none, execCalls + 1, errOutput ++ [softFailMsg httpStatus message reason n]⟩
          else
            ⟨.exited httpStatus (httpFailMsg httpStatus message reason), execCalls + 1, errOutput⟩
      | .refreshError message =>
          match handleOauthTokenError cfg message
              (softErrors || throwReasons.contains cfg.snaReason) with
          | .exits code m => ⟨.exited code m, execCalls + 1, errOutput⟩
          | .returns =>
              if throwReasons.contains cfg.snaReason then
                ⟨.raisedServiceNotAvailable message, execCalls + 1, errOutput⟩
              else
                ⟨.ok none, execCalls + 1,
                 errOutput ++ ["User " ++ userDisplay cfg.currentApiUser ++ ": " ++ message]⟩
      | .valueError message =>
          if st.cacheActive then
            callLoop cfg throwReasons retryReasons softErrors env retries fuel (n + 1) ⟨false⟩
              (execCalls + 1) errOutput
          else
            ⟨.exited 4 message, execCalls + 1, errOutput⟩
      | .serverNotFoundError message =>
          if n ≠ retries then
            callLoop cfg throwReasons retryReasons softErrors env retries fuel (n + 1) st
              (execCalls + 1) errOutput
          else
            ⟨.exited 4 message, execCalls + 1, errOutput⟩
      | .typeError message => ⟨.exited 4 message, execCalls + 1, errOutput⟩

/-- `call`: the loop with `retries = 10`, starting at attempt 1 with full
fuel and an empty observation. -/
def call {ρ : Type} (cfg : Config) (throwReasons retryReasons : List String)
    (softErrors : Bool) (env : Nat → Attempt ρ) (st : SvcState) : CallOutcome ρ :=
  callLoop cfg throwReasons retryReasons softErrors env 10 10 1 st 0 []

/-- Whether one loop iteration of `call` ends in a branch that continues the
loop, and if so with which transport state: the `-1` refresh sentinel, the
backoff-retry branch, the cache-clearing `ValueError` branch, and the
connection-reset branch.  Mirrors the branch order of `callLoop`. -/
def attemptContinues {ρ : Type} (cfg : Config) (throwReasons retryReasons : List String)
    (retries n : Nat) (st : SvcState) : Attempt ρ → Option SvcState
  | .httpError httpStatus reason _ =>
      if httpStatus = -1 then some st
      else if httpStatus = 0 then none
      else if reason ∈ cfg.knownReasons ∧ reason ∈ throwReasons then none
      else if n ≠ retries ∧ reason ∈ cfg.knownReasons ∧
          reason ∈ cfg.defaultRetryReasons ++ retryReasons then some st
      else none
  | .valueError _ => if st.cacheActive then some ⟨false⟩ else none
  | .serverNotFoundError _ => if n ≠ retries then some st else none
  | _ => none

/-- Every one of the next `fuel` iterations, starting at attempt `n` in state
`st`, ends in a continuing branch. -/
def allContinue {ρ : Type} (cfg : Config) (throwReasons retryReasons : List String)
    (env : Nat → Attempt ρ) (retries : Nat) : Nat → SvcState → Nat → Bool
  | _, _, 0 => true
  | n, st, fuel + 1 =>
      match attemptContinues cfg throwReasons retryReasons retries n st (env n) with
      | some st' => allContinue cfg throwReasons retryReasons env retries (n + 1) st' fuel
      | none => false

/-- The `maxResults` parameter descriptor of a method in the discovery
document: its optional declared `maximum`. -/
structure MaxResultsParam where
  maximum : Option Nat
deriving DecidableEq, Repr

/-- The `parameters` entry of a method in the discovery document, reduced to
what `_get_max_page_size_for_api_call` reads: whether a (truthy) `pageSize`
parameter is declared, and the optional `maxResults` descriptor (`none` for
absent or falsy). -/
structure MethodParams where
  pageSize : Bool
  maxResults : Option MaxResultsParam
deriving DecidableEq, Repr

/-- A method entry of the discovery document: its optional `id` and its
`parameters` (`none` for absent or empty, matching Python truthiness of
`a_method.get('parameters')`). -/
structure ApiMethod where
  id : Option String
  parameters : Option MethodParams
deriving DecidableEq, Repr

/-- A resource entry of the discovery document: its methods in iteration
order. -/
structure ApiResource where
  methods : List ApiMethod
deriving DecidableEq, Repr

/-- The per-method body of `_get_max_page_size_for_api_call` once the method
matching `api_id` is found: `None` when the method declares no parameters,
declares a `pageSize` parameter, or declares no `maxResults` parameter; else
the `maxResults` mapping whose value is the declared `maximum`, defaulting to
the `MAX_RESULTS_API_EXCEPTIONS` table entry (itself possibly `None`). -/
def maxPageSizeOfMethod (table : String → Option Nat) (apiId : String) (m : ApiMethod) :
    Option (Option Nat) :=
  match m.parameters with
  | none => none
  | some ps =>
      if ps.pageSize then none
      else
        match ps.maxResults with
        | none => none
        | some mr =>
            some (match mr.maximum with
                  | some v => some v
                  | none => table apiId)

/-- `_get_max_page_size_for_api_call`: scan the resources of
`service._rootDesc` in order, and inside each its methods in order; the first
method whose `id` equals the resolved `api_id` decides the result via
`maxPageSizeOfMethod`; `None` when no method matches. -/
def getMaxPageSizeForApiCall (resources : List ApiResource) (table : String → Option Nat)
    (apiId : String) : Option (Option Nat) :=
  match resources with
  | [] => none
  | r :: rest =>
      match r.methods.find? (fun m => m.id == some apiId) with
      | some m => maxPageSizeOfMethod table apiId m
      | none => getMaxPageSizeForApiCall rest table apiId

/-- The first method matching `api_id` in the flattened
resources-then-methods iteration order of the discovery document. -/
def firstMatchingMethod (resources : List ApiResource) (apiId : String) : Option ApiMethod :=
  ((resources.map ApiResource.methods).flatten).find? (fun m => m.id == some apiId)

/-! ## Theorems -/

theorem foldlM_pyGetAttr_emptyDict :
    ∀ attrs : List String, List.foldlM pyGetAttr (PVal.vdict []) attrs = some (PVal.vdict []) := by
  intro attrs
  induction attrs with
  | nil => rfl
  | cons a rest ih => simpa [List.foldlM_cons, pyGetAttr, dictGetD] using ih

/-- C7 counterexample: on a page with zero items and the nested-path form of
`message_attribute` (here the one-step path `["a"]`), `process_page` resolves
both the first-item and the last-item marker to the string form of the empty
dict (an opening and a closing curly brace), not to the empty string the
claim predicts. -/
theorem expand_message_empty_page_path_counterexample :
    resolveFirstLast [] (.path ["a"]) = some ("\x7b\x7d", "\x7b\x7d") ∧
    ("\x7b\x7d" : String) ≠ "" := by
  constructor
  · rfl
  · decide

/-- C7 amended: when `process_page` expands a progress message with a
`message_attribute`, a page with exactly one item resolves the last-item
marker exactly as the first-item marker (same string, and same error
behavior), for both attribute forms; a page with zero items raises no error
and resolves both markers to the empty string in the single-field-name form,
and to the string form of the empty dict in the nested-path form. -/
theorem process_page_markers_amended :
    (∀ (it : PVal) (a : MsgAttr),
        resolveFirstLast [it] a = (resolveFirstLast [it] a).map (fun p => (p.1, p.1))) ∧
    (∀ s : String, resolveFirstLast [] (.single s) = some ("", "")) ∧
    (∀ attrs : List String, resolveFirstLast [] (.path attrs) =
        some ("\x7b\x7d", "\x7b\x7d")) := by
  refine ⟨fun it a => ?_, fun s => rfl, fun attrs => ?_⟩
  · cases a with
    | single s =>
        cases h : resolveSingle it s <;>
          simp [resolveFirstLast, h]
    | path as =>
        cases h : resolvePath it as <;>
          simp [resolveFirstLast, h]
  · simp [resolveFirstLast, resolvePath, foldlM_pyGetAttr_emptyDict, pyStr, pyRepr,
      pyReprFields]

theorem callPageToken_injectPageToken (b : Bool) (tok : String) (kw : Kwargs) :
    callPageToken b (injectPageToken b tok kw) = some tok := by
  cases b <;> simp [callPageToken, injectPageToken]

theorem getAllPagesLoop_concat {α : Type} (b : Bool) :
    ∀ (front : List (Page α)) (plast : Page α) (kw : Kwargs) (acc : List α) (tot : Nat)
      (trace : List Kwargs),
      (∀ p ∈ front, tokenTruthy p.nextPageToken = true) →
      tokenTruthy plast.nextPageToken = false →
      ∃ tr, getAllPagesLoop b ((front ++ [plast]).map some) kw acc tot trace =
          some (acc ++ ((front ++ [plast]).map Page.items).flatten,
                tot + ((front ++ [plast]).map (fun p => p.items.length)).sum, tr) ∧
        tr.length = trace.length + (front.length + 1) := by
  intro front
  induction front with
  | nil =>
      intro plast kw acc tot trace _ hlast
      refine ⟨trace ++ [kw], ?_, by simp⟩
      simp [getAllPagesLoop, processPage, hlast]
  | cons p front ih =>
      intro plast kw acc tot trace hfront hlast
      have hp : tokenTruthy p.nextPageToken = true := hfront p (by simp)
      have hrest : ∀ q ∈ front, tokenTruthy q.nextPageToken = true :=
        fun q hq => hfront q (by simp [hq])
      obtain ⟨tr, heq, hlen⟩ :=
        ih plast (injectPageToken b (p.nextPageToken.getD "") kw) (acc ++ p.items)
          (tot + p.items.length) (trace ++ [kw]) hrest hlast
      refine ⟨tr, ?_, ?_⟩
      · have hstep : getAllPagesLoop b ((p :: front ++ [plast]).map some) kw acc tot trace =
            getAllPagesLoop b ((front ++ [plast]).map some)
              (injectPageToken b (p.nextPageToken.getD "") kw) (acc ++ p.items)
              (tot + p.items.length) (trace ++ [kw]) := by
          simp only [List.cons_append, List.map_cons]
          rw [getAllPagesLoop]
          simp [processPage, hp]
        rw [hstep, heq]
        simp [List.append_assoc, Nat.add_assoc]
      · simp only [List.length_append, List.length_cons, List.length_nil] at hlen ⊢
        omega

/-- C1: for every sequence of pages returned by the service (every page but
the last carrying a truthy continuation token, the last a falsy one),
`get_all_pages` returns exactly the concatenation of the per-page item lists
in service-returned order, the running total equals the sum of the per-page
item counts, and exactly one call is issued per page — no item is duplicated
or dropped. -/
theorem get_all_pages_aggregates_in_order {α : Type} (b : Bool) (front : List (Page α))
    (plast : Page α) (kw : Kwargs)
    (hfront : ∀ p ∈ front, tokenTruthy p.nextPageToken = true)
    (hlast : tokenTruthy plast.nextPageToken = false) :
    ∃ tr, getAllPages b ((front ++ [plast]).map some) kw =
        some (((front ++ [plast]).map Page.items).flatten,
              ((front ++ [plast]).map (fun p => p.items.length)).sum, tr) ∧
      tr.length = front.length + 1 := by
  obtain ⟨tr, heq, hlen⟩ :=
    getAllPagesLoop_concat b front plast (getAllPagesInit b kw) [] 0 [] hfront hlast
  exact ⟨tr, by simpa [getAllPages] using heq, by simpa using hlen⟩

/-- C1 witness: two concrete pages, the first with token `"T"` and items
`[1, 2]`, the last with token `None` and items `[3]`: the aggregate is
`[1, 2, 3]`, the total `3`, and two calls were issued. -/
theorem get_all_pages_aggregates_in_order_witness :
    ∃ tr, getAllPages false (([(⟨some "T", [1, 2]⟩ : Page Nat)] ++
          [(⟨none, [3]⟩ : Page Nat)]).map some) ⟨none, none⟩ =
        some ((([(⟨some "T", [1, 2]⟩ : Page Nat)] ++ [(⟨none, [3]⟩ : Page Nat)]).map
                Page.items).flatten,
              (([(⟨some "T", [1, 2]⟩ : Page Nat)] ++ [(⟨none, [3]⟩ : Page Nat)]).map
                (fun p => p.items.length)).sum, tr) ∧
      tr.length = [(⟨some "T", [1, 2]⟩ : Page Nat)].length + 1 :=
  get_all_pages_aggregates_in_order false [⟨some "T", [1, 2]⟩] ⟨none, [3]⟩ ⟨none, none⟩
    (by decide) (by decide)

/-- C2: for a service returning three pages of sizes 10, 10 and 4 with
continuation tokens `"T1"`, `"T2"` and the empty string, `get_all_pages`
returns the 24 items in page order, issues exactly 3 calls, and each call
after the first carries the previous call's token as its `pageToken`
parameter — in the body when `page_args_in_body`, else at top level. -/
theorem get_all_pages_three_pages {α : Type} (b : Bool) (kw : Kwargs) (xs1 xs2 xs3 : List α)
    (h1 : xs1.length = 10) (h2 : xs2.length = 10) (h3 : xs3.length = 4) :
    ∃ k1 k2 k3,
      getAllPages b [some ⟨some "T1", xs1⟩, some ⟨some "T2", xs2⟩, some ⟨some "", xs3⟩] kw =
        some (xs1 ++ xs2 ++ xs3, 24, [k1, k2, k3]) ∧
      callPageToken b k2 = some "T1" ∧ callPageToken b k3 = some "T2" := by
  refine ⟨getAllPagesInit b kw, injectPageToken b "T1" (getAllPagesInit b kw),
    injectPageToken b "T2" (injectPageToken b "T1" (getAllPagesInit b kw)), ?_,
    callPageToken_injectPageToken b "T1" (getAllPagesInit b kw),
    callPageToken_injectPageToken b "T2" (injectPageToken b "T1" (getAllPagesInit b kw))⟩
  have hrun : getAllPages b
      [some ⟨some "T1", xs1⟩, some ⟨some "T2", xs2⟩, some ⟨some "", xs3⟩] kw =
      some ((([] ++ xs1) ++ xs2) ++ xs3, ((0 + xs1.length) + xs2.length) + xs3.length,
        (([] ++ [getAllPagesInit b kw]) ++ [injectPageToken b "T1" (getAllPagesInit b kw)]) ++
          [injectPageToken b "T2" (injectPageToken b "T1" (getAllPagesInit b kw))]) := rfl
  rw [hrun]
  simp [h1, h2, h3]

/-- C2 witness: the three-page scenario at concrete item lists of lengths 10,
10 and 4 with `page_args_in_body` set. -/
theorem get_all_pages_three_pages_witness :
    ∃ k1 k2 k3,
      getAllPages true [some ⟨some "T1", List.replicate 10 0⟩,
          some ⟨some "T2", List.replicate 10 1⟩, some ⟨some "", List.replicate 4 2⟩]
          ⟨none, none⟩ =
        some (List.replicate 10 0 ++ List.replicate 10 1 ++ List.replicate 4 2, 24,
          [k1, k2, k3]) ∧
      callPageToken true k2 = some "T1" ∧ callPageToken true k3 = some "T2" :=
  get_all_pages_three_pages true ⟨none, none⟩ (List.replicate 10 0) (List.replicate 10 1)
    (List.replicate 4 2) (by simp) (by simp) (by simp)

/-- C3: at any attempt slot of `call` with budget remaining, an HTTP error
whose known reason is a member of both `throw_reasons` and `retry_reasons`
raises — the dedicated exception registered for the reason when one exists,
else the original `HttpError` — after exactly one further executor
invocation: the throw check takes precedence over the retry check.
(`call` is `callLoop` at `retries = 10`, full fuel, attempt 1.) -/
theorem call_throw_takes_precedence {ρ : Type} (cfg : Config)
    (throwReasons retryReasons : List String) (softErrors : Bool) (env : Nat → Attempt ρ)
    (retries fuel n : Nat) (st : SvcState) (execCalls : Nat) (errOutput : List String)
    (s : Int) (r m : String)
    (henv : env n = .httpError s r m) (hs1 : s ≠ -1) (hs0 : s ≠ 0)
    (hknown : r ∈ cfg.knownReasons) (hthrow : r ∈ throwReasons) (_hretry : r ∈ retryReasons) :
    callLoop cfg throwReasons retryReasons softErrors env retries (fuel + 1) n st execCalls
        errOutput =
      ⟨if cfg.reasonHasException r then .raisedTyped r m else .raisedHttp s r m,
       execCalls + 1, errOutput⟩ := by
  rw [callLoop, henv]
  simp only [hs1, hs0, hknown, hthrow, if_neg, if_pos, and_self, ite_false, ite_true]
  split <;> simp_all

/-- C3 witness: reason `"rateLimitExceeded"`, known, in both lists, with a
registered dedicated exception: one executor call, a typed raise. -/
theorem call_throw_takes_precedence_witness :
    callLoop (ρ := Unit)
        ⟨["rateLimitExceeded"], fun _ => true, [], "serviceNotAvailable", none, [], "cfg",
          fun u => u⟩
        ["rateLimitExceeded"] ["rateLimitExceeded"] false
        (fun _ => .httpError 403 "rateLimitExceeded" "Rate Limit Exceeded") 10 10 1 ⟨true⟩ 0
        [] =
      ⟨.raisedTyped "rateLimitExceeded" "Rate Limit Exceeded", 1, []⟩ := by
  have h := call_throw_takes_precedence (ρ := Unit)
    ⟨["rateLimitExceeded"], fun _ => true, [], "serviceNotAvailable", none, [], "cfg",
      fun u => u⟩
    ["rateLimitExceeded"] ["rateLimitExceeded"] false
    (fun _ => .httpError 403 "rateLimitExceeded" "Rate Limit Exceeded") 10 9 1 ⟨true⟩ 0 []
    403 "rateLimitExceeded" "Rate Limit Exceeded" rfl (by decide) (by decide) (by decide)
    (by decide) (by decide)
  simpa using h

/-- C4: an operation whose first 9 attempts fail with a condition classified
to status `-1` (refresh credentials) and whose 10th attempt succeeds still
returns the success from `call`: the refresh path never early-exits, so the
caller sees the successful response. -/
theorem call_refresh_then_success {ρ : Type} (cfg : Config)
    (throwReasons retryReasons : List String) (softErrors : Bool) (env : Nat → Attempt ρ)
    (st : SvcState) (response : ρ)
    (hfail : ∀ k, 1 ≤ k → k ≤ 9 → ∃ r m, env k = .httpError (-1) r m)
    (hsucc : env 10 = .success response) :
    call cfg throwReasons retryReasons softErrors env st = ⟨.ok (some response), 10, []⟩ := by
  obtain ⟨r1, m1, h1⟩ := hfail 1 (by omega) (by omega)
  obtain ⟨r2, m2, h2⟩ := hfail 2 (by omega) (by omega)
  obtain ⟨r3, m3, h3⟩ := hfail 3 (by omega) (by omega)
  obtain ⟨r4, m4, h4⟩ := hfail 4 (by omega) (by omega)
  obtain ⟨r5, m5, h5⟩ := hfail 5 (by omega) (by omega)
  obtain ⟨r6, m6, h6⟩ := hfail 6 (by omega) (by omega)
  obtain ⟨r7, m7, h7⟩ := hfail 7 (by omega) (by omega)
  obtain ⟨r8, m8, h8⟩ := hfail 8 (by omega) (by omega)
  obtain ⟨r9, m9, h9⟩ := hfail 9 (by omega) (by omega)
  simp [call, callLoop, h1, h2, h3, h4, h5, h6, h7, h8, h9, hsucc]

/-- C4 witness: nine refresh-classified failures then a success. -/
theorem call_refresh_then_success_witness :
    call (ρ := Unit) ⟨[], fun _ => false, [], "serviceNotAvailable", none, [], "cfg", fun u => u⟩
        [] [] false (fun k => if k ≤ 9 then .httpError (-1) "r" "m" else .success ()) ⟨true⟩ =
      ⟨.ok (some ()), 10, []⟩ := by
  have h := call_refresh_then_success (ρ := Unit)
    ⟨[], fun _ => false, [], "serviceNotAvailable", none, [], "cfg", fun u => u⟩ [] [] false
    (fun k => if k ≤ 9 then .httpError (-1) "r" "m" else .success ()) ⟨true⟩ ()
    (fun k _ hk9 => ⟨"r", "m", by simp [hk9]⟩) (by simp)
  simpa using h

/-- C8: an HTTP error classified with status `0` (ignorable) makes `call`
return a nil result after exactly one further executor invocation, even when
the error's reason is a member of `throw_reasons`: the ignorable check
short-circuits before the throw-reason check. -/
theorem call_ignorable_short_circuits {ρ : Type} (cfg : Config)
    (throwReasons retryReasons : List String) (softErrors : Bool) (env : Nat → Attempt ρ)
    (retries fuel n : Nat) (st : SvcState) (execCalls : Nat) (errOutput : List String)
    (r m : String)
    (henv : env n = .httpError 0 r m) (_hthrow : r ∈ throwReasons) :
    callLoop cfg throwReasons retryReasons softErrors env retries (fuel + 1) n st execCalls
        errOutput =
      ⟨.ok none, execCalls + 1, errOutput⟩ := by
  rw [callLoop, henv]
  norm_num

/-- C8 witness: a `notFound` error classified ignorable while `notFound` is
in `throw_reasons`: `call` returns `None` after one invocation. -/
theorem call_ignorable_short_circuits_witness :
    callLoop (ρ := Unit)
        ⟨["notFound"], fun _ => true, [], "serviceNotAvailable", none, [], "cfg", fun u => u⟩
        ["notFound"] [] false (fun _ => .httpError 0 "notFound" "Does not exist") 10 10 1
        ⟨true⟩ 0 [] =
      ⟨.ok none, 1, []⟩ := by
  have h := call_ignorable_short_circuits (ρ := Unit)
    ⟨["notFound"], fun _ => true, [], "serviceNotAvailable", none, [], "cfg", fun u => u⟩
    ["notFound"] [] false (fun _ => .httpError 0 "notFound" "Does not exist") 10 9 1 ⟨true⟩ 0
    [] "notFound" "Does not exist" rfl (by decide)
  simpa using h

/-- C9: an HTTP error whose reason string is not a member of the known
`ErrorReason` value set is never retried (even when the caller lists it in
`retry_reasons`) and never raised as a typed error: after exactly one further
executor invocation `call` prints a warning and returns a nil result when
`soft_errors` is set, else terminates the process with the HTTP status as
exit code. -/
theorem call_unknown_reason_surfaced {ρ : Type} (cfg : Config)
    (throwReasons retryReasons : List String) (softErrors : Bool) (env : Nat → Attempt ρ)
    (retries fuel n : Nat) (st : SvcState) (execCalls : Nat) (errOutput : List String)
    (s : Int) (r m : String)
    (henv : env n = .httpError s r m) (hs1 : s ≠ -1) (hs0 : s ≠ 0)
    (hunknown : r ∉ cfg.knownReasons) (_hretry : r ∈ retryReasons) :
    callLoop cfg throwReasons retryReasons softErrors env retries (fuel + 1) n st execCalls
        errOutput =
      if softErrors then
        ⟨.ok none, execCalls + 1, errOutput ++ [softFailMsg s m r n]⟩
      else
        ⟨.exited s (httpFailMsg s m r), execCalls + 1, errOutput⟩ := by
  rw [callLoop, henv]
  simp [hs1, hs0, hunknown]

/-- C9 witness: an unrecognized reason listed in `retry_reasons`, with
`soft_errors` unset: one invocation, process exit with the HTTP status. -/
theorem call_unknown_reason_surfaced_witness :
    callLoop (ρ := Unit)
        ⟨["rateLimitExceeded"], fun _ => true, ["rateLimitExceeded"], "serviceNotAvailable",
          none, [], "cfg", fun u => u⟩
        [] ["weirdReason"] false (fun _ => .httpError 503 "weirdReason" "strange") 10 10 1
        ⟨true⟩ 0 [] =
      ⟨.exited 503 (httpFailMsg 503 "strange" "weirdReason"), 1, []⟩ := by
  have h := call_unknown_reason_surfaced (ρ := Unit)
    ⟨["rateLimitExceeded"], fun _ => true, ["rateLimitExceeded"], "serviceNotAvailable", none,
      [], "cfg", fun u => u⟩
    [] ["weirdReason"] false (fun _ => .httpError 503 "weirdReason" "strange") 10 9 1 ⟨true⟩ 0
    [] 503 "weirdReason" "strange" rfl (by decide) (by decide) (by decide) (by decide)
  simpa using h

theorem callLoop_of_allContinue {ρ : Type} (cfg : Config)
    (throwReasons retryReasons : List String) (softErrors : Bool) (env : Nat → Attempt ρ)
    (retries : Nat) :
    ∀ (fuel n : Nat) (st : SvcState) (execCalls : Nat) (errOutput : List String),
      allContinue cfg throwReasons retryReasons env retries n st fuel = true →
      callLoop cfg throwReasons retryReasons softErrors env retries fuel n st execCalls
          errOutput =
        ⟨.ok none, execCalls + fuel, errOutput⟩ := by
  intro fuel
  induction fuel with
  | zero => intro n st execCalls errOutput _; simp [callLoop]
  | succ fuel ih =>
      intro n st execCalls errOutput h
      rw [allContinue] at h
      cases hc : attemptContinues (ρ := ρ) cfg throwReasons retryReasons retries n st (env n)
          with
      | none => rw [hc] at h; exact absurd h (by simp)
      | some st' =>
          rw [hc] at h
          have hrec := ih (n + 1) st' (execCalls + 1) errOutput h
          have hstep : callLoop cfg throwReasons retryReasons softErrors env retries
              (fuel + 1) n st execCalls errOutput =
              callLoop cfg throwReasons retryReasons softErrors env retries fuel (n + 1) st'
                (execCalls + 1) errOutput := by
            rw [callLoop]
            cases henv : env n with
            | success r => rw [henv] at hc; simp [attemptContinues] at hc
            | httpError s r m =>
                rw [henv] at hc
                simp only [attemptContinues] at hc
                split at hc
                · simp_all
                · split at hc
                  · simp_all
                  · split at hc
                    · simp_all
                    · split at hc
                      · simp_all
                      · simp_all
            | refreshError m => rw [henv] at hc; simp [attemptContinues] at hc
            | valueError m =>
                rw [henv] at hc
                simp only [attemptContinues] at hc
                split at hc
                · simp_all
                · simp_all
            | serverNotFoundError m =>
                rw [henv] at hc
                simp only [attemptContinues] at hc
                split at hc
                · simp_all
                · simp_all
            | typeError m => rw [henv] at hc; simp [attemptContinues] at hc
          rw [hstep, hrec]
          have : execCalls + 1 + fuel = execCalls + (fuel + 1) := by omega
          rw [this]

/-- C10: when every one of the 10 attempt iterations of `call` ends in a
branch that continues the loop (the `-1` refresh sentinel, the backoff-retry
branch, the cache-clearing `ValueError` branch, or the connection-reset
branch), `call` falls off the end of the loop and returns `None`: no
exception is raised and no retry-exhaustion error is reported. -/
theorem call_all_continue_returns_none {ρ : Type} (cfg : Config)
    (throwReasons retryReasons : List String) (softErrors : Bool) (env : Nat → Attempt ρ)
    (st : SvcState)
    (h : allContinue cfg throwReasons retryReasons env 10 1 st 10 = true) :
    call cfg throwReasons retryReasons softErrors env st = ⟨.ok none, 10, []⟩ := by
  have := callLoop_of_allContinue cfg throwReasons retryReasons softErrors env 10 10 1 st 0 []
    h
  simpa [call] using this

/-- C10 witness: every attempt classifies to the `-1` refresh sentinel: after
10 iterations `call` returns `None`. -/
theorem call_all_continue_returns_none_witness :
    call (ρ := Unit) ⟨[], fun _ => false, [], "serviceNotAvailable", none, [], "cfg", fun u => u⟩
        [] [] false (fun _ => .httpError (-1) "r" "m") ⟨true⟩ =
      ⟨.ok none, 10, []⟩ :=
  call_all_continue_returns_none (ρ := Unit)
    ⟨[], fun _ => false, [], "serviceNotAvailable", none, [], "cfg", fun u => u⟩ [] [] false
    (fun _ => .httpError (-1) "r" "m") ⟨true⟩ (by decide)

/-- C5: `handle_oauth_token_error` returns without action exactly when the
period-stripped error message is recognized (a member of
`OAUTH2_TOKEN_ERRORS`, or an `"Invalid response"` prefix) and soft errors are
allowed; otherwise it terminates the process — exit code 12 when recognized
and no current-user context is set, exit code 19 when recognized and a
current user is set, and exit code 18 when the message is unrecognized,
regardless of the soft flag.  The abort paths never return: the result type
separates `returns` from `exits`. -/
theorem handle_oauth_token_error_spec (cfg : Config) (errMessage : String)
    (softErrors : Bool) :
    (handleOauthTokenError cfg errMessage softErrors = .returns ↔
      tokenErrorRecognized cfg errMessage = true ∧ softErrors = true) ∧
    ((∃ msg, handleOauthTokenError cfg errMessage softErrors = .exits 12 msg) ↔
      tokenErrorRecognized cfg errMessage = true ∧ softErrors = false ∧
        userTruthy cfg.currentApiUser = false) ∧
    ((∃ msg, handleOauthTokenError cfg errMessage softErrors = .exits 19 msg) ↔
      tokenErrorRecognized cfg errMessage = true ∧ softErrors = false ∧
        userTruthy cfg.currentApiUser = true) ∧
    ((∃ msg, handleOauthTokenError cfg errMessage softErrors = .exits 18 msg) ↔
      tokenErrorRecognized cfg errMessage = false) := by
  unfold handleOauthTokenError
  cases hrec : tokenErrorRecognized cfg errMessage <;>
    cases hsoft : softErrors <;>
      cases huser : userTruthy cfg.currentApiUser <;>
        simp

theorem getMaxPageSize_firstMatch_aux (table : String → Option Nat) (apiId : String)
    (m : ApiMethod) :
    ∀ resources : List ApiResource,
      firstMatchingMethod resources apiId = some m →
      getMaxPageSizeForApiCall resources table apiId = maxPageSizeOfMethod table apiId m := by
  intro resources
  induction resources with
  | nil => intro h; simp [firstMatchingMethod] at h
  | cons r rest ih =>
      intro h
      rw [firstMatchingMethod, List.map_cons, List.flatten_cons, List.find?_append] at h
      rw [getMaxPageSizeForApiCall]
      cases hf : r.methods.find? (fun mm => mm.id == some apiId) with
      | some m0 =>
          rw [hf] at h
          simp only [Option.or_some, Option.some.injEq] at h
          rw [h]
      | none =>
          rw [hf] at h
          simp only [Option.none_or] at h
          exact ih h

/-- C6: the first method (in resources-then-methods iteration order of the
discovery document) whose id matches decides the result of
`_get_max_page_size_for_api_call`: nothing when that method declares no
parameters, declares a `pageSize` parameter, or declares no `maxResults`
parameter — whatever other metadata exists elsewhere — and otherwise a
`maxResults` mapping whose value is the declared maximum, falling back to the
`MAX_RESULTS_API_EXCEPTIONS` table entry for the method id when the metadata
omits the maximum. -/
theorem get_max_page_size_for_api_call_spec (resources : List ApiResource)
    (table : String → Option Nat) (apiId : String) (m : ApiMethod)
    (hfind : firstMatchingMethod resources apiId = some m) :
    (m.parameters = none → getMaxPageSizeForApiCall resources table apiId = none) ∧
    (∀ ps, m.parameters = some ps → ps.pageSize = true →
        getMaxPageSizeForApiCall resources table apiId = none) ∧
    (∀ ps, m.parameters = some ps → ps.maxResults = none →
        getMaxPageSizeForApiCall resources table apiId = none) ∧
    (∀ ps mr, m.parameters = some ps → ps.pageSize = false → ps.maxResults = some mr →
        getMaxPageSizeForApiCall resources table apiId =
          some (match mr.maximum with
                | some v => some v
                | none => table apiId)) := by
  have heq := getMaxPageSize_firstMatch_aux table apiId m resources hfind
  rw [heq]
  refine ⟨fun hp => ?_, fun ps hp hps => ?_, fun ps hp hmr => ?_,
    fun ps mr hp hps hmr => ?_⟩
  · simp [maxPageSizeOfMethod, hp]
  · simp [maxPageSizeOfMethod, hp, hps]
  · simp [maxPageSizeOfMethod, hp, hmr]
  · simp [maxPageSizeOfMethod, hp, hps, hmr]

/-- C6 witness: the matching method sits in the second resource, declares no
`pageSize`, declares `maxResults` without a `maximum`: the result falls back
to the static table entry. -/
theorem get_max_page_size_for_api_call_spec_witness :
    getMaxPageSizeForApiCall
        [⟨[⟨some "other.method", none⟩]⟩,
         ⟨[⟨some "drive.files.list", some ⟨false, some ⟨none⟩⟩⟩]⟩]
        (fun _ => some 500) "drive.files.list" =
      some (some 500) :=
  (get_max_page_size_for_api_call_spec
      [⟨[⟨some "other.method", none⟩]⟩,
       ⟨[⟨some "drive.files.list", some ⟨false, some ⟨none⟩⟩⟩]⟩]
      (fun _ => some 500) "drive.files.list" ⟨some "drive.files.list", some ⟨false, some ⟨none⟩⟩⟩
      (by decide)).2.2.2 ⟨false, some ⟨none⟩⟩ ⟨none⟩ rfl rfl rfl

end Gapi
